import Mathlib

/-!
Shallow embedding of the mcp-ssh-server session/SFTP/tunnel layer
(`src/ssh.ts`, `src/sftp.ts`, the MCP entry point and the key generator),
together with theorems settling the specification claims about it.

External collaborators (the `ssh2` transport engine, the local filesystem,
the network) are modelled as explicit parameters: a filesystem is a function
from paths to optional contents, transport and stream outcomes are values of
small inductive types, and the remote SFTP server is a small state model.
-/

namespace SshMcp

/-- JavaScript truthiness for an optional string: `undefined` and `""` are
falsy, every other string is truthy (mirrors `if (opts.x)` checks). -/
def truthy : Option String → Bool
  | none => false
  | some s => !(s == "")

/-- JavaScript `a || b` for an optional string `a` and default `b`. -/
def orDefault (o : Option String) (d : String) : String :=
  match o with
  | none => d
  | some s => if s == "" then d else s

/-! ## Host access policy (`checkHost`, `ssh.ts` lines 14-16 and 62-75) -/

/-- One pattern check from `checkHost`: `*.suffix` patterns accept hosts
ending in `.suffix` (`pattern.slice(1)`) or equal to `suffix`
(`pattern.slice(2)`); any other pattern is an exact match. The wildcard
test `pattern.startsWith("*.")` is rendered as a match on the leading
characters. -/
def hostMatches (host pattern : String) : Bool :=
  match pattern.data with
  | '*' :: '.' :: suffixChars =>
      host.endsWith ⟨'.' :: suffixChars⟩ || host == (⟨suffixChars⟩ : String)
  | _ => host == pattern

/-- Parsing of `SSH_MCP_ALLOWED_HOSTS`: an unset or empty variable yields no
restriction (`null`); otherwise the value is split on commas and each piece
trimmed. -/
def parseAllowedHosts (env : Option String) : Option (List String) :=
  match env with
  | none => none
  | some s => if s == "" then none else some ((s.splitOn ",").map (fun h => h.trim))

/-- `checkHost`: with no configured list every host is accepted; otherwise a
host is accepted when some pattern matches. (The source throws on rejection;
here acceptance is returned as a `Bool` and the caller raises the error.) -/
def checkHost (allowed : Option (List String)) (host : String) : Bool :=
  match allowed with
  | none => true
  | some pats => pats.any (fun pattern => hostMatches host pattern)

/-! ## Authentication resolution (`resolveKey`, `connect` lines 124-132 and 172-186) -/

/-- The fixed ordered default key locations probed by `resolveKey`. -/
def defaultKeyPaths : List String :=
  ["~/.ssh/id_ed25519", "~/.ssh/id_rsa", "~/.ssh/id_ecdsa"]

/-- `resolveKey`: with a truthy configured default key path, probes only that
path; otherwise probes the fixed default locations in order. A read failure
(`fs p = none`) is swallowed and the next candidate is tried; `none` is
returned when no candidate reads successfully. -/
def resolveKey (fs : String → Option String) (keyPath : Option String) : Option String :=
  let paths := if truthy keyPath then [keyPath.getD ""] else defaultKeyPaths
  paths.findSome? fs

structure ConnectOpts where
  host : String
  port : Option Nat
  username : Option String
  password : Option String
  privateKey : Option String
  privateKeyPath : Option String
  passphrase : Option String
  name : Option String

inductive AuthError where
  | readKeyFailed (path : String)
  | unavailable
deriving DecidableEq, Repr

/-- The credential ultimately placed in the `ssh2` connect config. -/
inductive Cred where
  | key (data : String) (passphrase : Option String)
  | password (pw : String)
deriving DecidableEq, Repr

/-- `connect` lines 124-132: the private-key resolution phase. An inline key
wins; else a truthy `privateKeyPath` is read (`readFileSync`, whose failure
propagates as an exception); else, only when no password is given, the
default locations are probed. -/
def resolveAuthKey (fs : String → Option String) (defaultKeyPath : Option String)
    (o : ConnectOpts) : Except AuthError (Option String) :=
  if truthy o.privateKey then .ok o.privateKey
  else if truthy o.privateKeyPath then
    match fs (o.privateKeyPath.getD "") with
    | some contents => .ok (some contents)
    | none => .error (.readKeyFailed (o.privateKeyPath.getD ""))
  else if !(truthy o.password) then .ok (resolveKey fs defaultKeyPath)
  else .ok none

/-- `connect` lines 172-186: the credential selection phase. A resolved key is
used (with the passphrase when truthy); else a truthy password; else the call
rejects with the no-authentication error. -/
def selectCred (keyRes : Option String) (o : ConnectOpts) : Except AuthError Cred :=
  match keyRes with
  | some k => .ok (.key k (if truthy o.passphrase then o.passphrase else none))
  | none =>
      if truthy o.password then .ok (.password (o.password.getD ""))
      else .error .unavailable

/-- The complete authentication resolution of one `connect` call. -/
def resolveAuth (fs : String → Option String) (defaultKeyPath : Option String)
    (o : ConnectOpts) : Except AuthError Cred :=
  match resolveAuthKey fs defaultKeyPath o with
  | .error e => .error e
  | .ok keyRes => selectCred keyRes o

/-! ## Session registry (`ssh.ts` lines 19-21, 58-60, 77-82) -/

structure SessionEntry where
  host : String
  port : Nat
  username : String
  connectedAt : Nat
  lastUsedAt : Nat
deriving DecidableEq, Repr

/-- The `connections` map, as an association list keyed by connection id. -/
abbrev Registry := List (String × SessionEntry)

def lookupSession : Registry → String → Option SessionEntry
  | [], _ => none
  | (k, v) :: tl, id => if k == id then some v else lookupSession tl id

/-- The state change of `touch`: set `lastUsedAt` of the named entry to the
current time. -/
def touchReg : Registry → String → Nat → Registry
  | [], _, _ => []
  | (k, v) :: tl, id, now =>
      (k, if k == id then { v with lastUsedAt := now } else v) :: touchReg tl id now

/-- `connections.delete(id)`. -/
def eraseSession : Registry → String → Registry
  | [], _ => []
  | (k, v) :: tl, id =>
      if k == id then eraseSession tl id else (k, v) :: eraseSession tl id

/-- `connections.set(id, entry)`. -/
def setSession (reg : Registry) (id : String) (e : SessionEntry) : Registry :=
  eraseSession reg id ++ [(id, e)]

/-- `makeConnectionId`: the caller-supplied name when truthy, else
`host:port`. -/
def makeConnectionId (host : String) (port : Nat) (name : Option String) : String :=
  orDefault name (host ++ ":" ++ toString port)

inductive SshError where
  | sessionNotFound (id : String)
  | hostPolicyViolation (host : String)
  | keyReadFailed (path : String)
  | authUnavailable
  | connectionTimeout
  | connectionFailed (msg : String)
  | commandTimeout (timeoutMs : Nat) (command : String)
  | execFailed (msg : String)
  | streamFailed (msg : String)
  | forwardConflict (id : String)
  | forwardSetupFailed (msg : String)
deriving DecidableEq, Repr

/-- `touch` itself: look up the entry (raising the not-found error when
absent), set its `lastUsedAt` to now, and return the updated entry together
with the updated registry. -/
def touchCall (reg : Registry) (id : String) (now : Nat) :
    Except SshError (SessionEntry × Registry) :=
  match lookupSession reg id with
  | none => .error (.sessionNotFound id)
  | some e => .ok ({ e with lastUsedAt := now }, touchReg reg id now)

/-! ## Command executor (`exec`, `ssh.ts` lines 245-296) -/

/-- `stdout.replace(/\n$/, "")`: drop one trailing newline when present. -/
def trimTrailingNewline (s : String) : String :=
  if s.data.getLast? = some '\n' then ⟨s.data.dropLast⟩ else s

structure ExecResult where
  stdout : String
  stderr : String
  exitCode : Int
deriving DecidableEq, Repr

/-- The `close` handler of `exec`: trim one trailing newline from each
captured stream and default a missing exit code to 0. -/
def closeResult (stdout stderr : String) (code : Option Int) : ExecResult :=
  { stdout := trimTrailingNewline stdout
    stderr := trimTrailingNewline stderr
    exitCode := code.getD 0 }

/-- What the external transport does with one command invocation: the timer
fires first, the `exec` callback reports an error, the stream errors, or the
stream closes with accumulated output and an optional exit code. -/
inductive ExecOutcome where
  | timedOut
  | execError (msg : String)
  | streamError (msg : String)
  | closed (stdout stderr : String) (code : Option Int)

def EXEC_TIMEOUT_DEFAULT : Nat := 30000

/-- `exec`: touch the session (not-found error when absent, registry
unchanged), then settle according to the transport outcome. The registry
component of the result is the registry after the call. -/
def execModel (reg : Registry) (id : String) (command : String) (timeout : Option Nat)
    (outcome : ExecOutcome) (now : Nat) : Except SshError ExecResult × Registry :=
  match touchCall reg id now with
  | .error e => (.error e, reg)
  | .ok (_, reg') =>
      let effTimeout := timeout.getD EXEC_TIMEOUT_DEFAULT
      match outcome with
      | .timedOut => (.error (.commandTimeout effTimeout (command.take 100)), reg')
      | .execError m => (.error (.execFailed m), reg')
      | .streamError m => (.error (.streamFailed m), reg')
      | .closed out err code => (.ok (closeResult out err code), reg')

/-- `getConnection`: `touch` exposed to the SFTP tools. -/
def getConnectionModel (reg : Registry) (id : String) (now : Nat) :
    Except SshError SessionEntry × Registry :=
  match touchCall reg id now with
  | .error e => (.error e, reg)
  | .ok (e, reg') => (.ok e, reg')

/-! ## Tunnel manager (`portForward`, `ssh.ts` lines 298-376) -/

inductive FwdDirection where
  | localFwd
  | remoteFwd
deriving DecidableEq, Repr

def FwdDirection.str : FwdDirection → String
  | .localFwd => "local"
  | .remoteFwd => "remote"

structure ForwardInfo where
  id : String
  type : FwdDirection
  bindAddr : String
  bindPort : Nat
  destAddr : String
  destPort : Nat
  connectionId : String
deriving DecidableEq, Repr

structure ForwardOpts where
  connectionId : String
  type : FwdDirection
  bindAddr : Option String
  bindPort : Nat
  destAddr : String
  destPort : Nat

/-- The `forwards` map, keyed by the deterministic forward id. -/
abbrev Forwards := List (String × ForwardInfo)

/-- The deterministic tunnel identifier
`` `${type}:${bindAddr}:${bindPort}->${destAddr}:${destPort}` `` with the
bind address defaulted to the loopback address. -/
def fwdIdOf (o : ForwardOpts) : String :=
  let bindAddr := orDefault o.bindAddr "127.0.0.1"
  o.type.str ++ ":" ++ bindAddr ++ ":" ++ toString o.bindPort ++ "->" ++
    o.destAddr ++ ":" ++ toString o.destPort

def lookupForward : Forwards → String → Option ForwardInfo
  | [], _ => none
  | (k, v) :: tl, fid => if k == fid then some v else lookupForward tl fid

/-- How many registered tunnels carry a given identifier. -/
def countForward : Forwards → String → Nat
  | [], _ => 0
  | (k, _) :: tl, fid =>
      (if k == fid then 1 else 0) + countForward tl fid

/-- `portForward`: touch the session, compute the deterministic id, reject a
duplicate id before allocating anything, then (abstracting the local
`server.listen` respectively remote `forwardIn` call as one setup outcome)
either fail with nothing registered or insert the entry. Returns the result
together with the connection registry and forward map after the call. -/
def portForwardModel (conns : Registry) (fwds : Forwards) (o : ForwardOpts)
    (now : Nat) (setup : Except String Unit) :
    Except SshError ForwardInfo × Registry × Forwards :=
  match touchCall conns o.connectionId now with
  | .error e => (.error e, conns, fwds)
  | .ok (_, conns') =>
      let bindAddr := orDefault o.bindAddr "127.0.0.1"
      let fid := fwdIdOf o
      if (lookupForward fwds fid).isSome then
        (.error (.forwardConflict fid), conns', fwds)
      else
        match setup with
        | .error msg => (.error (.forwardSetupFailed msg), conns', fwds)
        | .ok _ =>
            let info : ForwardInfo :=
              { id := fid, type := o.type, bindAddr := bindAddr,
                bindPort := o.bindPort, destAddr := o.destAddr,
                destPort := o.destPort, connectionId := o.connectionId }
            (.ok info, conns', fwds ++ [(fid, info)])

/-! ## Session open (`connect`, `ssh.ts` lines 84-194) -/

/-- What the external transport does with one connection attempt: the
`ready` event, the `error` event, or the 15s timer firing first. -/
inductive TransportOutcome where
  | ready
  | failed (msg : String)
  | timedOut

structure ConnectOk where
  connectionId : String
  host : String
  port : Nat
  username : String
deriving DecidableEq, Repr

/-- `connect`. Parameters model the process environment (`allowedHosts`,
`defaultKeyPath`, `defaultUsername`), the local filesystem `fs`, the liveness
probe's outcome when an entry is reused, and the transport outcome of a fresh
open. Returns the result together with the registry after the call. -/
def connectModel (allowedHosts : Option (List String)) (fs : String → Option String)
    (defaultKeyPath defaultUsername : Option String)
    (reg : Registry) (o : ConnectOpts)
    (probe : ExecOutcome) (transport : TransportOutcome) (now : Nat) :
    Except SshError ConnectOk × Registry :=
  let host := o.host
  let port := o.port.getD 22
  let username := orDefault o.username (orDefault defaultUsername "root")
  let id := makeConnectionId host port o.name
  if !(checkHost allowedHosts host) then
    (.error (.hostPolicyViolation host), reg)
  else
    -- Reuse an existing live connection: probe with `echo __alive__` (5s
    -- timeout); on success touch and return it, on failure end the stale
    -- client and delete the entry, then fall through to a fresh open.
    let reuse : Option (Except SshError ConnectOk × Registry) :=
      match lookupSession reg id with
      | some e =>
          match (execModel reg id "echo __alive__" (some 5000) probe now).1 with
          | .ok _ => some (.ok ⟨id, e.host, e.port, e.username⟩, touchReg reg id now)
          | .error _ => none
      | none => none
    match reuse with
    | some r => r
    | none =>
        let reg' :=
          match lookupSession reg id with
          | some _ => eraseSession (execModel reg id "echo __alive__" (some 5000) probe now).2 id
          | none => reg
        match resolveAuth fs defaultKeyPath o with
        | .error (.readKeyFailed p) => (.error (.keyReadFailed p), reg')
        | .error .unavailable => (.error .authUnavailable, reg')
        | .ok _cred =>
            match transport with
            | .ready =>
                let e : SessionEntry :=
                  { host := host, port := port, username := username,
                    connectedAt := now, lastUsedAt := now }
                (.ok ⟨id, host, port, username⟩, setSession reg' id e)
            | .failed msg => (.error (.connectionFailed msg), eraseSession reg' id)
            | .timedOut => (.error .connectionTimeout, reg')

/-! ## SFTP read (`read`, `sftp.ts` lines 91-140) -/

def MAX_FILE_SIZE_DEFAULT : Nat := 1048576

inductive SftpError where
  | statFailed (msg : String)
  | transferSizeExceeded (size limit : Nat)
  | readFailed (msg : String)
  | mkdirFailed (msg : String)
  | notADirectory (path : String)
deriving DecidableEq, Repr

structure ReadResult where
  content : String
  encoding : String
  size : Nat
deriving DecidableEq, Repr

/-- `read`: stat the remote file first (`statRes` is the external stat's
outcome, giving the remote size); reject with the size error when the size
strictly exceeds the effective limit (explicit `maxSize`, else the configured
default); only otherwise stream the file (`fileData`) and decode it with the
requested encoding (default `utf8`; `decode enc raw` stands for
`Buffer.toString(enc)`). -/
def sftpRead (statRes : Except String Nat) (fileData : String)
    (decode : String → String → String)
    (encoding : Option String) (maxSize : Option Nat) : Except SftpError ReadResult :=
  match statRes with
  | .error m => .error (.statFailed m)
  | .ok size =>
      let limit := maxSize.getD MAX_FILE_SIZE_DEFAULT
      if size > limit then .error (.transferSizeExceeded size limit)
      else
        let enc := encoding.getD "utf8"
        .ok { content := decode enc fileData, encoding := enc, size := fileData.length }

/-! ## SFTP recursive mkdir (`mkdir`, `sftp.ts` lines 171-218) -/

inductive FsNode where
  | dir
  | file
deriving DecidableEq, Repr

/-- The remote filesystem as seen through the SFTP subchannel: an association
list from absolute or relative path strings to nodes. -/
abbrev RemoteFs := List (String × FsNode)

def fsLookup : RemoteFs → String → Option FsNode
  | [], _ => none
  | (k, v) :: tl, p => if k == p then some v else fsLookup tl p

def NO_SUCH_FILE_CODE : Nat := 2
def SSH_FX_FAILURE_CODE : Nat := 4

def parentIsDir (fs : RemoteFs) (parent : String) : Bool :=
  parent == "" || parent == "/" || fsLookup fs parent == some .dir

/-- Modelled external SFTP server `mkdir` primitive: the server fails with
status `existsCode` when the target already exists (the source's comment
assumes this is `SSH_FX_FAILURE` = 4), fails with `SSH_FX_NO_SUCH_FILE` = 2
when the parent is missing or not a directory, and creates the directory
otherwise. `existsCode` is kept as a parameter because it is
transport-implementation-specific. -/
def serverMkdir (existsCode : Nat) (fs : RemoteFs) (parent p : String) :
    Except Nat RemoteFs :=
  if (fsLookup fs p).isSome then .error existsCode
  else if !(parentIsDir fs parent) then .error NO_SUCH_FILE_CODE
  else .ok (fs ++ [(p, .dir)])

/-- JavaScript `String.replace("//", "/")`: replace the first occurrence of
`//` (scanning left to right) with `/`. -/
def replaceFirstDoubleSlash : List Char → List Char
  | '/' :: '/' :: rest => '/' :: rest
  | c :: rest => c :: replaceFirstDoubleSlash rest
  | [] => []

/-- One step of the prefix accumulation:
`` current ? `${current}/${part}`.replace("//", "/") : part ``. -/
def mkdirStep (current part : String) : String :=
  if current == "" then part
  else ⟨replaceFirstDoubleSlash (current ++ "/" ++ part).data⟩

/-- JavaScript `path.split("/")`: cut the string at every slash, keeping
empty pieces. -/
def splitSlashAux : List Char → List Char → List String
  | [], acc => [⟨acc.reverse⟩]
  | '/' :: rest, acc => (⟨acc.reverse⟩ : String) :: splitSlashAux rest []
  | c :: rest, acc => splitSlashAux rest (c :: acc)

def splitSlash (s : String) : List String :=
  splitSlashAux s.data []

/-- `path.startsWith("/")`. -/
def pathIsAbsolute (path : String) : Bool :=
  match path.data with
  | '/' :: _ => true
  | _ => false

/-- The loop body of recursive `mkdir` over the remaining path segments,
`prev` being the prefix created so far. A primitive failure with status
code 4 is treated as success with no verification; any other failure is
checked with `stat`: an existing directory is tolerated, an existing
non-directory surfaces the not-a-directory error, and an absent path
re-raises the mkdir failure. -/
def mkdirRecLoop (existsCode : Nat) (fs : RemoteFs) (prev : String) :
    List String → Except SftpError RemoteFs
  | [] => .ok fs
  | part :: rest =>
      let current := mkdirStep prev part
      match serverMkdir existsCode fs prev current with
      | .ok fs' => mkdirRecLoop existsCode fs' current rest
      | .error c =>
          if c == SSH_FX_FAILURE_CODE then mkdirRecLoop existsCode fs current rest
          else
            match fsLookup fs current with
            | some .dir => mkdirRecLoop existsCode fs current rest
            | some .file => .error (.notADirectory current)
            | none => .error (.mkdirFailed (toString c))

/-- Recursive `mkdir`: split the path into segments
(`path.split("/").filter(Boolean)`), then create each prefix in turn
starting from `/` for an absolute path and `""` otherwise. -/
def mkdirRecursive (existsCode : Nat) (fs : RemoteFs) (path : String) :
    Except SftpError RemoteFs :=
  mkdirRecLoop existsCode fs (if pathIsAbsolute path then "/" else "")
    ((splitSlash path).filter (fun s => !(s == "")))

/-! ## Key pair generation (`keygen.ts`) -/

inductive KeyType where
  | ed25519
  | rsa
  | ecdsa
deriving DecidableEq, Repr

structure KeygenOpts where
  type : Option KeyType
  bits : Option Nat
  comment : Option String
  passphrase : Option String

/-- The options and tags the generator passes to the external crypto
primitive and returns: the key strings themselves come verbatim from
`utils.generateKeyPairSync` and are not modelled. -/
structure KeyPairSpec where
  type : KeyType
  bits : Option Nat
  comment : Option String
  cipher : Option String
deriving DecidableEq, Repr

inductive KeygenError where
  | invalidEcdsaBits (bits : Nat)
deriving DecidableEq, Repr

def DEFAULT_RSA_BITS : Nat := 4096
def DEFAULT_ECDSA_BITS : Nat := 256

/-- `generateKeyPair`: type defaults to ed25519; ed25519 takes no bit length;
rsa defaults the bit length to 4096 and forwards whatever was requested;
ecdsa defaults to 256 and rejects anything other than 256, 384 or 521. -/
def generateKeyPair (o : KeygenOpts) : Except KeygenError KeyPairSpec :=
  let keyType := o.type.getD .ed25519
  let cipher := if truthy o.passphrase then some "aes256-cbc" else none
  match keyType with
  | .ed25519 => .ok { type := .ed25519, bits := none, comment := o.comment, cipher := cipher }
  | .rsa =>
      let bits := o.bits.getD DEFAULT_RSA_BITS
      .ok { type := .rsa, bits := some bits, comment := o.comment, cipher := cipher }
  | .ecdsa =>
      let bits := o.bits.getD DEFAULT_ECDSA_BITS
      if bits == 256 || bits == 384 || bits == 521 then
        .ok { type := .ecdsa, bits := some bits, comment := o.comment, cipher := cipher }
      else .error (.invalidEcdsaBits bits)

/-! ## Operation traces over the registry

Used to state the `lastUsedAt` invariant: every operation that resolves a
session funnels through `touch`, so a trace of operations at non-decreasing
times keeps each entry's `lastUsedAt` non-decreasing. -/

structure ServerState where
  connections : Registry
  forwards : Forwards

/-- One request against the server, carrying the parameters and modelled
external outcomes it needs. `fileOp` stands for any SFTP tool, all of which
resolve the session through `getConnection`. -/
inductive SessionOp where
  | execOp (id : String) (cmd : String) (timeout : Option Nat) (outcome : ExecOutcome)
  | fileOp (id : String)
  | tunnelOp (o : ForwardOpts) (setup : Except String Unit)
  | openOp (allowedHosts : Option (List String)) (fs : String → Option String)
      (defaultKeyPath defaultUsername : Option String) (o : ConnectOpts)
      (probe : ExecOutcome) (transport : TransportOutcome)

/-- The state change performed by one request at time `now`. -/
def stepOp (s : ServerState) (op : SessionOp) (now : Nat) : ServerState :=
  match op with
  | .execOp id cmd t outcome =>
      { s with connections := (execModel s.connections id cmd t outcome now).2 }
  | .fileOp id =>
      { s with connections := (getConnectionModel s.connections id now).2 }
  | .tunnelOp o setup =>
      let r := portForwardModel s.connections s.forwards o now setup
      { connections := r.2.1, forwards := r.2.2 }
  | .openOp ah fs dkp du o probe transport =>
      { s with connections := (connectModel ah fs dkp du s.connections o probe transport now).2 }

/-- Run a timed trace of requests. -/
def runOps (s : ServerState) (ops : List (Nat × SessionOp)) : ServerState :=
  ops.foldl (fun st top => stepOp st top.2 top.1) s

/-- The `lastUsedAt` discipline of one registry mutation performed at time
`now`: every entry surviving the mutation either keeps its previous
`lastUsedAt` or carries `now`. -/
def RegLastUsedOk (regBefore regAfter : Registry) (now : Nat) : Prop :=
  ∀ id e', lookupSession regAfter id = some e' →
    e'.lastUsedAt = now
      ∨ ∃ e, lookupSession regBefore id = some e ∧ e'.lastUsedAt = e.lastUsedAt

/-! ## Registry lemmas -/


theorem lookupSession_touchReg_self (reg : Registry) (id : String) (now : Nat) :
    lookupSession (touchReg reg id now) id
      = (lookupSession reg id).map (fun e => { e with lastUsedAt := now }) := by
  induction reg with
  | nil => rfl
  | cons hd tl ih =>
      obtain ⟨k, v⟩ := hd
      by_cases h : k = id
      · subst h
        simp [lookupSession, touchReg, beq_iff_eq]
      · simp [lookupSession, touchReg, beq_iff_eq, h, ih]

theorem lookupSession_touchReg_other (reg : Registry) (id id' : String) (now : Nat)
    (h : id' ≠ id) :
    lookupSession (touchReg reg id now) id' = lookupSession reg id' := by
  induction reg with
  | nil => rfl
  | cons hd tl ih =>
      obtain ⟨k, v⟩ := hd
      by_cases hk : k = id
      · subst hk
        simp [lookupSession, touchReg, beq_iff_eq, Ne.symm h, ih]
      · simp [lookupSession, touchReg, beq_iff_eq, hk, ih]

theorem lookupSession_eraseSession_self (reg : Registry) (id : String) :
    lookupSession (eraseSession reg id) id = none := by
  induction reg with
  | nil => rfl
  | cons hd tl ih =>
      obtain ⟨k, v⟩ := hd
      by_cases h : k = id
      · simp [eraseSession, h, ih]
      · simp [eraseSession, lookupSession, h, ih]

theorem lookupSession_eraseSession_other (reg : Registry) (id id' : String)
    (h : id' ≠ id) :
    lookupSession (eraseSession reg id) id' = lookupSession reg id' := by
  induction reg with
  | nil => rfl
  | cons hd tl ih =>
      obtain ⟨k, v⟩ := hd
      by_cases hk : k = id
      · subst hk
        simp [eraseSession, lookupSession, Ne.symm h, ih]
      · simp [eraseSession, lookupSession, hk, ih]

theorem eraseSession_of_absent (reg : Registry) (id : String)
    (h : lookupSession reg id = none) :
    eraseSession reg id = reg := by
  induction reg with
  | nil => rfl
  | cons hd tl ih =>
      obtain ⟨k, v⟩ := hd
      by_cases hk : k = id
      · subst hk
        simp [lookupSession] at h
      · simp [lookupSession, hk] at h
        simp [eraseSession, hk, ih h]

theorem lookupSession_append (l1 l2 : Registry) (id : String) :
    lookupSession (l1 ++ l2) id
      = match lookupSession l1 id with
        | some e => some e
        | none => lookupSession l2 id := by
  induction l1 with
  | nil => simp [lookupSession]
  | cons hd tl ih =>
      obtain ⟨k, v⟩ := hd
      by_cases hk : k = id
      · simp [lookupSession, hk]
      · simp [lookupSession, hk, ih]

theorem lookupSession_setSession_self (reg : Registry) (id : String) (e : SessionEntry) :
    lookupSession (setSession reg id e) id = some e := by
  simp [setSession, lookupSession_append, lookupSession_eraseSession_self, lookupSession]

theorem lookupSession_setSession_other (reg : Registry) (id id' : String) (e : SessionEntry)
    (h : id' ≠ id) :
    lookupSession (setSession reg id e) id' = lookupSession reg id' := by
  rw [setSession, lookupSession_append, lookupSession_eraseSession_other reg id id' h]
  cases hc : lookupSession reg id' with
  | some v => rfl
  | none => simp [lookupSession, beq_iff_eq, Ne.symm h]

/-! ## Claims: command results, file read, key generation -/


theorem trimTrailingNewline_append_newline (s : String) :
    trimTrailingNewline (s ++ "\n") = s := by
  have hdata : (s ++ "\n").data = s.data ++ ['\n'] := by
    simp [String.data_append]
  simp [trimTrailingNewline, hdata]

theorem trimTrailingNewline_of_no_newline (s : String)
    (h : s.data.getLast? ≠ some '\n') :
    trimTrailingNewline s = s := by
  simp [trimTrailingNewline, h]

/-- C3: on normal completion `exec` removes exactly one trailing newline from
each captured stream, reports the transport exit code (0 when the transport
supplies none), and in particular output `"ok\n"` yields
`{stdout := "ok", stderr := "", exitCode := 0}`. -/
theorem exec_trims_single_trailing_newline :
    (∀ (reg : Registry) (id cmd : String) (t : Option Nat) (now : Nat) (e : SessionEntry)
       (out err : String) (code : Option Int),
       lookupSession reg id = some e →
       (execModel reg id cmd t (.closed (out ++ "\n") (err ++ "\n") code) now).1
         = .ok ⟨out, err, code.getD 0⟩)
    ∧ (∀ (out err : String) (code : Option Int),
        out.data.getLast? ≠ some '\n' → err.data.getLast? ≠ some '\n' →
        closeResult out err code = ⟨out, err, code.getD 0⟩)
    ∧ (∀ (out err : String) (c : Int), (closeResult out err (some c)).exitCode = c)
    ∧ (∀ out err : String, (closeResult out err none).exitCode = 0)
    ∧ closeResult "ok\n" "" (some 0) = ⟨"ok", "", 0⟩ := by
  refine ⟨?_, ?_, ?_, ?_, ?_⟩
  · intro reg id cmd t now e out err code h
    simp [execModel, touchCall, h, closeResult, trimTrailingNewline_append_newline]
  · intro out err code hout herr
    simp [closeResult, trimTrailingNewline_of_no_newline _ hout,
      trimTrailingNewline_of_no_newline _ herr]
  · intro out err c
    simp [closeResult]
  · intro out err
    simp [closeResult]
  · have : ("ok" ++ "\n" : String) = "ok\n" := rfl
    rw [closeResult, ← this, trimTrailingNewline_append_newline]
    rfl

theorem exec_trims_single_trailing_newline_witness :
    (execModel [("s1", ⟨"h", 22, "root", 0, 0⟩)] "s1" "run" none
        (.closed ("ok" ++ "\n") ("" ++ "\n") (some 0)) 5).1 = .ok ⟨"ok", "", 0⟩
    ∧ closeResult "ok" "" none = ⟨"ok", "", 0⟩ :=
  ⟨exec_trims_single_trailing_newline.1 [("s1", ⟨"h", 22, "root", 0, 0⟩)] "s1" "run" none 5
      ⟨"h", 22, "root", 0, 0⟩ "ok" "" (some 0) rfl,
   exec_trims_single_trailing_newline.2.1 "ok" "" none (by decide) (by decide)⟩

/-- C4: `read` stats first and rejects with the size error exactly when the
remote size strictly exceeds the effective limit (explicit `maxSize`, else
the configured 1,048,576-byte default), independently of the file's bytes
(nothing is transferred); otherwise the whole file is streamed and decoded
with the requested encoding, defaulting to UTF-8. -/
theorem read_size_guard :
    (∀ (size : Nat) (ms : Option Nat) (enc : Option String) (d1 d2 : String)
       (dec1 dec2 : String → String → String),
       size > ms.getD MAX_FILE_SIZE_DEFAULT →
       sftpRead (.ok size) d1 dec1 enc ms
           = .error (.transferSizeExceeded size (ms.getD MAX_FILE_SIZE_DEFAULT))
         ∧ sftpRead (.ok size) d1 dec1 enc ms = sftpRead (.ok size) d2 dec2 enc ms)
    ∧ (∀ (size : Nat) (ms : Option Nat) (enc : Option String) (data : String)
         (dec : String → String → String),
        size ≤ ms.getD MAX_FILE_SIZE_DEFAULT →
        sftpRead (.ok size) data dec enc ms
          = .ok { content := dec (enc.getD "utf8") data, encoding := enc.getD "utf8",
                  size := data.length })
    ∧ sftpRead (.ok MAX_FILE_SIZE_DEFAULT) "x" (fun _ raw => raw) none none
        = .ok { content := "x", encoding := "utf8", size := 1 } := by
  refine ⟨?_, ?_, ?_⟩
  · intro size ms enc d1 d2 dec1 dec2 hgt
    constructor <;> simp [sftpRead, hgt]
  · intro size ms enc data dec hle
    simp [sftpRead, Nat.not_lt.mpr hle]
  · simp [sftpRead, MAX_FILE_SIZE_DEFAULT]
    decide

theorem read_size_guard_witness :
    (sftpRead (.ok 2000000) "DATA" (fun _ raw => raw) none none
        = .error (.transferSizeExceeded 2000000 1048576)
      ∧ sftpRead (.ok 2000000) "DATA" (fun _ raw => raw) none none
        = sftpRead (.ok 2000000) "OTHER" (fun _ _ => "ignored") none none)
    ∧ sftpRead (.ok 3) "abc" (fun _ raw => raw) (some "base64") (some 3)
        = .ok { content := "abc", encoding := "base64", size := 3 } :=
  ⟨read_size_guard.1 2000000 none none "DATA" "OTHER" (fun _ raw => raw)
      (fun _ _ => "ignored") (by decide),
   read_size_guard.2.1 3 (some 3) (some "base64") "abc" (fun _ raw => raw) (by norm_num)⟩

/-- C7: the key generator's RSA branch applies the 4096-bit default but
enforces no minimum: a request of 1024 bits (below the documented 2048-bit
minimum) is accepted and forwarded instead of being rejected with an
invalid-parameters error. -/
theorem keygen_rsa_no_minimum_enforced :
    generateKeyPair { type := some .rsa, bits := some 1024, comment := none, passphrase := none }
      = .ok { type := .rsa, bits := some 1024, comment := none, cipher := none }
    ∧ generateKeyPair { type := some .rsa, bits := none, comment := none, passphrase := none }
      = .ok { type := .rsa, bits := some 4096, comment := none, cipher := none } :=
  ⟨rfl, rfl⟩

/-! ## Claims: host access policy -/


theorem data_wildcard (s : String) : ("*." ++ s).data = '*' :: '.' :: s.data := by
  rw [String.data_append]
  rfl

theorem dot_append_data (s : String) : ("." ++ s) = (⟨'.' :: s.data⟩ : String) := by
  apply String.ext
  rw [String.data_append]
  rfl

/-- C6: with no configured allow-list (unset or empty environment variable)
every host is accepted; with a configured list a host is accepted iff it
exactly equals some pattern or matches a `*.suffix` pattern (ends in
`.suffix` or equals `suffix`); a rejected host makes `connect` fail with the
host-policy error with the registry unchanged, independently of every later
stage (authentication, transport), i.e. before any connection attempt. -/
theorem host_policy_allowlist (host : String) :
    (∀ h : String, checkHost (parseAllowedHosts none) h = true)
    ∧ (∀ h : String, checkHost (parseAllowedHosts (some "")) h = true)
    ∧ (∀ pats : List String,
        checkHost (some pats) host = true ↔ ∃ p ∈ pats, hostMatches host p = true)
    ∧ (∀ s : String,
        hostMatches host ("*." ++ s) = (host.endsWith ("." ++ s) || host == s))
    ∧ (∀ p : String, (¬ ∃ s : String, p = "*." ++ s) →
        (hostMatches host p = true ↔ host = p))
    ∧ (∀ (allowed : Option (List String)) (fs : String → Option String)
         (dkp du : Option String) (reg : Registry) (o : ConnectOpts)
         (probe : ExecOutcome) (transport : TransportOutcome) (now : Nat),
        checkHost allowed o.host = false →
        connectModel allowed fs dkp du reg o probe transport now
          = (.error (.hostPolicyViolation o.host), reg)) := by
  refine ⟨?_, ?_, ?_, ?_, ?_, ?_⟩
  · intro h
    rfl
  · intro h
    rfl
  · intro pats
    simp [checkHost, List.any_eq_true]
  · intro s
    have hd := data_wildcard s
    unfold hostMatches
    split
    · rename_i sc heq
      rw [hd] at heq
      cases heq
      rw [dot_append_data]
    · rename_i hne
      exfalso
      exact hne s.data hd
  · intro p hnw
    unfold hostMatches
    split
    · rename_i sc heq
      exfalso
      apply hnw
      refine ⟨⟨sc⟩, String.ext ?_⟩
      rw [heq, data_wildcard]
    · simp [beq_iff_eq]
  · intro allowed fs dkp du reg o probe transport now hrej
    simp [connectModel, hrej]

theorem host_policy_allowlist_witness :
    checkHost (parseAllowedHosts none) "anyhost" = true
    ∧ (checkHost (some ["a.com", "*.b.org"]) "c.b.org" = true
        ↔ ∃ p ∈ ["a.com", "*.b.org"], hostMatches "c.b.org" p = true)
    ∧ (hostMatches "x.com" "plain.com" = true ↔ "x.com" = "plain.com")
    ∧ connectModel (some ["a.com"]) (fun _ => none) none none []
        { host := "evil.com", port := none, username := none, password := none,
          privateKey := none, privateKeyPath := none, passphrase := none, name := none }
        .timedOut .ready 0
        = (.error (.hostPolicyViolation "evil.com"), []) :=
  ⟨(host_policy_allowlist "anyhost").1 "anyhost",
   (host_policy_allowlist "c.b.org").2.2.1 ["a.com", "*.b.org"],
   (host_policy_allowlist "x.com").2.2.2.2.1 "plain.com"
     (by
       rintro ⟨s, hs⟩
       have : ("plain.com").data = ("*." ++ s).data := by rw [hs]
       rw [data_wildcard] at this
       simp at this),
   (host_policy_allowlist "evil.com").2.2.2.2.2 (some ["a.com"]) (fun _ => none) none none []
     _ .timedOut .ready 0 (by decide)⟩

/-! ## Claims: authentication precedence -/


/-- C2: one `connect` call selects its credential by the fixed precedence
inline private key > private-key file path > (only when neither a key nor a
password is given) probe of the fixed ordered default key locations >
password, signalling the no-authentication error when none resolves; and a
probe-read failure of the first default location is swallowed, the remaining
candidates being tried in order. Stated with `SSH_MCP_DEFAULT_KEY` unset, so
the probe list is exactly `~/.ssh/id_ed25519`, `~/.ssh/id_rsa`,
`~/.ssh/id_ecdsa`. -/
theorem connect_auth_precedence (fs : String → Option String) (o : ConnectOpts) :
    (resolveAuth fs none o =
      if truthy o.privateKey then
        .ok (.key (o.privateKey.getD "")
          (if truthy o.passphrase then o.passphrase else none))
      else if truthy o.privateKeyPath then
        match fs (o.privateKeyPath.getD "") with
        | some contents => .ok (.key contents
            (if truthy o.passphrase then o.passphrase else none))
        | none => .error (.readKeyFailed (o.privateKeyPath.getD ""))
      else if !(truthy o.password) then
        match defaultKeyPaths.findSome? fs with
        | some contents => .ok (.key contents
            (if truthy o.passphrase then o.passphrase else none))
        | none => .error .unavailable
      else .ok (.password (o.password.getD "")))
    ∧ (∀ g : String → Option String, g "~/.ssh/id_ed25519" = none →
        resolveKey g none = List.findSome? g ["~/.ssh/id_rsa", "~/.ssh/id_ecdsa"]) := by
  constructor
  · by_cases h1 : truthy o.privateKey
    · obtain ⟨k, hk⟩ : ∃ k, o.privateKey = some k := by
        cases hpk : o.privateKey with
        | none => rw [hpk] at h1; simp [truthy] at h1
        | some k => exact ⟨k, rfl⟩
      rw [hk] at h1
      simp [resolveAuth, resolveAuthKey, selectCred, hk, h1]
    · by_cases h2 : truthy o.privateKeyPath
      · cases hfs : fs (o.privateKeyPath.getD "") with
        | some contents => simp [resolveAuth, resolveAuthKey, selectCred, h1, h2, hfs]
        | none => simp [resolveAuth, resolveAuthKey, selectCred, h1, h2, hfs]
      · by_cases h3 : truthy o.password
        · obtain ⟨pw, hpw⟩ : ∃ pw, o.password = some pw := by
            cases hp : o.password with
            | none => rw [hp] at h3; simp [truthy] at h3
            | some pw => exact ⟨pw, rfl⟩
          rw [hpw] at h3
          simp [resolveAuth, resolveAuthKey, selectCred, h1, h2, hpw, h3]
        · have hrk : resolveKey fs none = defaultKeyPaths.findSome? fs := by
            simp [resolveKey, truthy]
          cases hk : defaultKeyPaths.findSome? fs with
          | some contents =>
              simp [resolveAuth, resolveAuthKey, selectCred, h1, h2, h3, hrk, hk]
          | none =>
              simp [resolveAuth, resolveAuthKey, selectCred, h1, h2, h3, hrk, hk]
  · intro g hg
    simp [resolveKey, truthy, defaultKeyPaths, List.findSome?, hg]

theorem connect_auth_precedence_witness :
    (resolveAuth (fun p => if p == "~/.ssh/id_rsa" then some "RSAKEY" else none) none
        { host := "h", port := none, username := none, password := none,
          privateKey := none, privateKeyPath := none, passphrase := none, name := none }
      = match defaultKeyPaths.findSome?
            (fun p => if p == "~/.ssh/id_rsa" then some "RSAKEY" else none) with
        | some contents => .ok (.key contents none)
        | none => .error .unavailable)
    ∧ resolveKey (fun p => if p == "~/.ssh/id_rsa" then some "RSAKEY" else none) none
      = List.findSome? (fun p => if p == "~/.ssh/id_rsa" then some "RSAKEY" else none)
          ["~/.ssh/id_rsa", "~/.ssh/id_ecdsa"] := by
  have h := connect_auth_precedence
    (fun p => if p == "~/.ssh/id_rsa" then some "RSAKEY" else none)
    { host := "h", port := none, username := none, password := none,
      privateKey := none, privateKeyPath := none, passphrase := none, name := none }
  exact ⟨h.1, h.2 (fun p => if p == "~/.ssh/id_rsa" then some "RSAKEY" else none) (by decide)⟩

/-! ## Claims: tunnel conflict -/


theorem lookupForward_append (l1 l2 : Forwards) (fid : String) :
    lookupForward (l1 ++ l2) fid
      = match lookupForward l1 fid with
        | some i => some i
        | none => lookupForward l2 fid := by
  induction l1 with
  | nil => simp [lookupForward]
  | cons hd tl ih =>
      obtain ⟨k, v⟩ := hd
      by_cases hk : k = fid
      · simp [lookupForward, hk]
      · simp [lookupForward, hk, ih]

theorem countForward_append (l1 l2 : Forwards) (fid : String) :
    countForward (l1 ++ l2) fid = countForward l1 fid + countForward l2 fid := by
  induction l1 with
  | nil => simp [countForward]
  | cons hd tl ih =>
      obtain ⟨k, v⟩ := hd
      simp [countForward, ih]
      omega

theorem countForward_eq_zero_of_lookup_none (l : Forwards) (fid : String)
    (h : lookupForward l fid = none) : countForward l fid = 0 := by
  induction l with
  | nil => rfl
  | cons hd tl ih =>
      obtain ⟨k, v⟩ := hd
      by_cases hk : k = fid
      · simp [lookupForward, hk] at h
      · simp [lookupForward, hk] at h
        simp [countForward, hk, ih h]

/-- C1: when the session exists and no tunnel with the tuple-derived
identifier is registered, `create_tunnel` registers exactly one tunnel with
that identifier; a second call with the same tuple then signals the
forward-conflict error, leaves the forward map unchanged (whatever the setup
outcome — no resource is allocated), and exactly one tunnel with that
identifier remains registered. -/
theorem tunnel_duplicate_conflict (conns : Registry) (fwds : Forwards) (o : ForwardOpts)
    (now now2 : Nat) (e : SessionEntry)
    (hconn : lookupSession conns o.connectionId = some e)
    (hfresh : lookupForward fwds (fwdIdOf o) = none) :
    ∃ (info : ForwardInfo) (conns1 : Registry) (fwds1 : Forwards),
      portForwardModel conns fwds o now (.ok ()) = (.ok info, conns1, fwds1)
      ∧ countForward fwds1 (fwdIdOf o) = 1
      ∧ ∀ setup : Except String Unit,
          (portForwardModel conns1 fwds1 o now2 setup).1
              = .error (.forwardConflict (fwdIdOf o))
          ∧ (portForwardModel conns1 fwds1 o now2 setup).2.2 = fwds1
          ∧ countForward (portForwardModel conns1 fwds1 o now2 setup).2.2 (fwdIdOf o) = 1 := by
  refine ⟨{ id := fwdIdOf o, type := o.type, bindAddr := orDefault o.bindAddr "127.0.0.1",
            bindPort := o.bindPort, destAddr := o.destAddr, destPort := o.destPort,
            connectionId := o.connectionId },
          touchReg conns o.connectionId now,
          fwds ++ [(fwdIdOf o,
            { id := fwdIdOf o, type := o.type, bindAddr := orDefault o.bindAddr "127.0.0.1",
              bindPort := o.bindPort, destAddr := o.destAddr, destPort := o.destPort,
              connectionId := o.connectionId })], ?_, ?_, ?_⟩
  · simp [portForwardModel, touchCall, hconn, hfresh]
  · rw [countForward_append, countForward_eq_zero_of_lookup_none fwds _ hfresh]
    simp [countForward]
  · intro setup
    have h2 : lookupSession (touchReg conns o.connectionId now) o.connectionId
        = some { e with lastUsedAt := now } := by
      rw [lookupSession_touchReg_self, hconn]
      rfl
    have h3 : lookupForward (fwds ++ [(fwdIdOf o,
        { id := fwdIdOf o, type := o.type, bindAddr := orDefault o.bindAddr "127.0.0.1",
          bindPort := o.bindPort, destAddr := o.destAddr, destPort := o.destPort,
          connectionId := o.connectionId })]) (fwdIdOf o)
        = some { id := fwdIdOf o, type := o.type,
                 bindAddr := orDefault o.bindAddr "127.0.0.1",
                 bindPort := o.bindPort, destAddr := o.destAddr, destPort := o.destPort,
                 connectionId := o.connectionId } := by
      rw [lookupForward_append, hfresh]
      simp [lookupForward]
    have hsecond : portForwardModel (touchReg conns o.connectionId now)
        (fwds ++ [(fwdIdOf o,
          { id := fwdIdOf o, type := o.type, bindAddr := orDefault o.bindAddr "127.0.0.1",
            bindPort := o.bindPort, destAddr := o.destAddr, destPort := o.destPort,
            connectionId := o.connectionId })]) o now2 setup
        = (.error (.forwardConflict (fwdIdOf o)),
           touchReg (touchReg conns o.connectionId now) o.connectionId now2,
           fwds ++ [(fwdIdOf o,
             { id := fwdIdOf o, type := o.type, bindAddr := orDefault o.bindAddr "127.0.0.1",
               bindPort := o.bindPort, destAddr := o.destAddr, destPort := o.destPort,
               connectionId := o.connectionId })]) := by
      simp [portForwardModel, touchCall, h2, h3]
    refine ⟨?_, ?_, ?_⟩
    · rw [hsecond]
    · rw [hsecond]
    · rw [hsecond]
      rw [countForward_append, countForward_eq_zero_of_lookup_none fwds _ hfresh]
      simp [countForward]

theorem tunnel_duplicate_conflict_witness :
    ∃ (info : ForwardInfo) (conns1 : Registry) (fwds1 : Forwards),
      portForwardModel [("db", ⟨"h", 22, "root", 0, 0⟩)] []
          ⟨"db", .localFwd, none, 8080, "10.0.0.5", 5432⟩ 1 (.ok ())
        = (.ok info, conns1, fwds1)
      ∧ countForward fwds1 (fwdIdOf ⟨"db", .localFwd, none, 8080, "10.0.0.5", 5432⟩) = 1
      ∧ ∀ setup : Except String Unit,
          (portForwardModel conns1 fwds1
              ⟨"db", .localFwd, none, 8080, "10.0.0.5", 5432⟩ 2 setup).1
            = .error (.forwardConflict
                (fwdIdOf ⟨"db", .localFwd, none, 8080, "10.0.0.5", 5432⟩))
          ∧ (portForwardModel conns1 fwds1
              ⟨"db", .localFwd, none, 8080, "10.0.0.5", 5432⟩ 2 setup).2.2 = fwds1
          ∧ countForward ((portForwardModel conns1 fwds1
              ⟨"db", .localFwd, none, 8080, "10.0.0.5", 5432⟩ 2 setup).2.2)
              (fwdIdOf ⟨"db", .localFwd, none, 8080, "10.0.0.5", 5432⟩) = 1 :=
  tunnel_duplicate_conflict [("db", ⟨"h", 22, "root", 0, 0⟩)] []
    ⟨"db", .localFwd, none, 8080, "10.0.0.5", 5432⟩ 1 2 ⟨"h", 22, "root", 0, 0⟩ rfl rfl

/-! ## Claims: connect failure, exec timeout frame -/


/-- C8: a fresh `connect` (no entry under the computed identifier) whose
transport open fails or times out signals the connection-failed respectively
connection-timeout error and leaves the registry exactly as it was. -/
theorem connect_failure_leaves_no_entry
    (allowed : Option (List String)) (fs : String → Option String)
    (dkp du : Option String) (reg : Registry) (o : ConnectOpts)
    (probe : ExecOutcome) (now : Nat) (cred : Cred) (msg : String)
    (hfresh : lookupSession reg (makeConnectionId o.host (o.port.getD 22) o.name) = none)
    (hhost : checkHost allowed o.host = true)
    (hauth : resolveAuth fs dkp o = .ok cred) :
    connectModel allowed fs dkp du reg o probe (.failed msg) now
        = (.error (.connectionFailed msg), reg)
    ∧ connectModel allowed fs dkp du reg o probe .timedOut now
        = (.error .connectionTimeout, reg) := by
  constructor
  · simp [connectModel, hhost, hfresh, hauth, eraseSession_of_absent reg _ hfresh]
  · simp [connectModel, hhost, hfresh, hauth]

theorem connect_failure_leaves_no_entry_witness :
    connectModel none (fun _ => none) none none [("other", ⟨"o", 22, "root", 0, 0⟩)]
        { host := "h1", port := none, username := none, password := some "pw",
          privateKey := none, privateKeyPath := none, passphrase := none, name := none }
        .timedOut (.failed "refused") 7
      = (.error (.connectionFailed "refused"), [("other", ⟨"o", 22, "root", 0, 0⟩)])
    ∧ connectModel none (fun _ => none) none none [("other", ⟨"o", 22, "root", 0, 0⟩)]
        { host := "h1", port := none, username := none, password := some "pw",
          privateKey := none, privateKeyPath := none, passphrase := none, name := none }
        .timedOut .timedOut 7
      = (.error .connectionTimeout, [("other", ⟨"o", 22, "root", 0, 0⟩)]) :=
  connect_failure_leaves_no_entry none (fun _ => none) none none
    [("other", ⟨"o", 22, "root", 0, 0⟩)]
    { host := "h1", port := none, username := none, password := some "pw",
      privateKey := none, privateKeyPath := none, passphrase := none, name := none }
    .timedOut 7 (.password "pw") "refused" rfl rfl rfl

/-- C10: `exec` ending in the command timeout signals the timeout error
carrying the truncated command, while the registry is only touched: the
entry survives with `lastUsedAt` updated and its transport handle is not
closed, so a subsequent `getConnection` with the same identifier does not
signal the session-not-found error. -/
theorem exec_timeout_preserves_session (reg : Registry) (id cmd : String)
    (t : Option Nat) (now now2 : Nat) (e : SessionEntry)
    (h : lookupSession reg id = some e) :
    (execModel reg id cmd t .timedOut now).1
        = .error (.commandTimeout (t.getD EXEC_TIMEOUT_DEFAULT) (cmd.take 100))
    ∧ (execModel reg id cmd t .timedOut now).2 = touchReg reg id now
    ∧ lookupSession (execModel reg id cmd t .timedOut now).2 id
        = some { e with lastUsedAt := now }
    ∧ (getConnectionModel (execModel reg id cmd t .timedOut now).2 id now2).1
        ≠ .error (.sessionNotFound id) := by
  have hreg : (execModel reg id cmd t .timedOut now).2 = touchReg reg id now := by
    simp [execModel, touchCall, h]
  have hlook : lookupSession (execModel reg id cmd t .timedOut now).2 id
      = some { e with lastUsedAt := now } := by
    rw [hreg, lookupSession_touchReg_self, h]
    rfl
  refine ⟨?_, hreg, hlook, ?_⟩
  · simp [execModel, touchCall, h]
  · simp [getConnectionModel, touchCall, hlook]

theorem exec_timeout_preserves_session_witness :
    (execModel [("s1", ⟨"h", 22, "root", 0, 0⟩)] "s1" "sleep 5" (some 1) .timedOut 3).1
        = .error (.commandTimeout 1 (("sleep 5" : String).take 100))
    ∧ (execModel [("s1", ⟨"h", 22, "root", 0, 0⟩)] "s1" "sleep 5" (some 1) .timedOut 3).2
        = touchReg [("s1", ⟨"h", 22, "root", 0, 0⟩)] "s1" 3
    ∧ lookupSession
        (execModel [("s1", ⟨"h", 22, "root", 0, 0⟩)] "s1" "sleep 5" (some 1) .timedOut 3).2 "s1"
        = some ⟨"h", 22, "root", 0, 3⟩
    ∧ (getConnectionModel
        (execModel [("s1", ⟨"h", 22, "root", 0, 0⟩)] "s1" "sleep 5" (some 1) .timedOut 3).2
        "s1" 9).1 ≠ .error (.sessionNotFound "s1") :=
  exec_timeout_preserves_session [("s1", ⟨"h", 22, "root", 0, 0⟩)] "s1" "sleep 5"
    (some 1) 3 9 ⟨"h", 22, "root", 0, 0⟩ rfl

/-! ## Claims: recursive mkdir -/


theorem fsLookup_append (l1 l2 : RemoteFs) (p : String) :
    fsLookup (l1 ++ l2) p
      = match fsLookup l1 p with
        | some n => some n
        | none => fsLookup l2 p := by
  induction l1 with
  | nil => simp [fsLookup]
  | cons hd tl ih =>
      obtain ⟨k, v⟩ := hd
      by_cases hk : k = p
      · simp [fsLookup, hk]
      · simp [fsLookup, hk, ih]

theorem fsLookup_append_self_isSome (l1 : RemoteFs) (l2 : RemoteFs) (p : String)
    (h : (fsLookup l1 p).isSome) : (fsLookup (l1 ++ l2) p).isSome := by
  rw [fsLookup_append]
  cases hc : fsLookup l1 p with
  | some n => simp
  | none => rw [hc] at h; simp at h

theorem serverMkdir_of_exists (c : Nat) (fs : RemoteFs) (parent p : String)
    (h : (fsLookup fs p).isSome) : serverMkdir c fs parent p = .error c := by
  simp [serverMkdir, h]

theorem serverMkdir_ok_elim (c : Nat) (fs fs1 : RemoteFs) (parent p : String)
    (h : serverMkdir c fs parent p = .ok fs1) :
    fsLookup fs p = none ∧ fs1 = fs ++ [(p, .dir)] := by
  unfold serverMkdir at h
  by_cases he : (fsLookup fs p).isSome
  · simp [he] at h
  · by_cases hp : parentIsDir fs parent
    · simp [he, hp] at h
      exact ⟨Option.not_isSome_iff_eq_none.mp he, h.symm⟩
    · simp [he, hp] at h

theorem serverMkdir_error_ne_elim (c c' : Nat) (fs : RemoteFs) (parent p : String)
    (h : serverMkdir c fs parent p = .error c') (hne : c' ≠ c) :
    fsLookup fs p = none := by
  unfold serverMkdir at h
  by_cases he : (fsLookup fs p).isSome
  · simp [he] at h
    exact absurd h.symm hne
  · exact Option.not_isSome_iff_eq_none.mp he

theorem serverMkdir_error_self_exists (fs : RemoteFs) (parent p : String)
    (h : serverMkdir 4 fs parent p = .error 4) : (fsLookup fs p).isSome := by
  by_contra hne
  have hnone := Option.not_isSome_iff_eq_none.mp hne
  unfold serverMkdir at h
  rw [hnone] at h
  by_cases hp : parentIsDir fs parent
  · simp [hp] at h
  · simp [hp, NO_SUCH_FILE_CODE] at h

/-- Success of the recursive-mkdir loop under the exists-means-code-4 server:
the filesystem only grows, and re-running the loop on the result succeeds
without further change. -/
theorem mkdirRecLoop_ok_invariant (parts : List String) :
    ∀ (fs fs' : RemoteFs) (prev : String),
      mkdirRecLoop 4 fs prev parts = .ok fs' →
      (∀ q, (fsLookup fs q).isSome → (fsLookup fs' q).isSome)
        ∧ mkdirRecLoop 4 fs' prev parts = .ok fs' := by
  induction parts with
  | nil =>
      intro fs fs' prev h
      rw [mkdirRecLoop] at h
      cases h
      exact ⟨fun q hq => hq, rfl⟩
  | cons part rest ih =>
      intro fs fs' prev h
      rw [mkdirRecLoop] at h
      cases hserv : serverMkdir 4 fs prev (mkdirStep prev part) with
      | ok fs1 =>
          rw [hserv] at h
          simp only at h
          obtain ⟨hnone, hfs1⟩ := serverMkdir_ok_elim _ _ _ _ _ hserv
          obtain ⟨hmono, hrerun⟩ := ih fs1 fs' (mkdirStep prev part) h
          have hcur1 : (fsLookup fs1 (mkdirStep prev part)).isSome := by
            rw [hfs1, fsLookup_append, hnone]
            simp [fsLookup]
          have hcur' : (fsLookup fs' (mkdirStep prev part)).isSome :=
            hmono _ hcur1
          refine ⟨?_, ?_⟩
          · intro q hq
            exact hmono q (by rw [hfs1]; exact fsLookup_append_self_isSome fs _ q hq)
          · rw [mkdirRecLoop, serverMkdir_of_exists 4 fs' prev _ hcur']
            simpa using hrerun
      | error c =>
          rw [hserv] at h
          by_cases hc : c = 4
          · subst hc
            simp only [SSH_FX_FAILURE_CODE, beq_self_eq_true, if_pos] at h
            have hex : (fsLookup fs (mkdirStep prev part)).isSome :=
              serverMkdir_error_self_exists fs prev (mkdirStep prev part) hserv
            obtain ⟨hmono, hrerun⟩ := ih fs fs' (mkdirStep prev part) h
            have hcur' : (fsLookup fs' (mkdirStep prev part)).isSome := hmono _ hex
            refine ⟨hmono, ?_⟩
            rw [mkdirRecLoop, serverMkdir_of_exists 4 fs' prev _ hcur']
            simpa using hrerun
          · have hnone := serverMkdir_error_ne_elim 4 c fs prev (mkdirStep prev part) hserv hc
            have hcf : (c == SSH_FX_FAILURE_CODE) = false := by
              simp [SSH_FX_FAILURE_CODE, hc]
            simp [hcf, hnone] at h


/-- C5 counterexample: under the source's own assumption that status code 4
means "already exists", recursive `mkdir` on a path whose final prefix
exists as a regular file succeeds silently instead of surfacing the
not-a-directory error. -/
theorem mkdir_recursive_existing_file_counterexample :
    mkdirRecursive 4 [("a", FsNode.file)] "a" = .ok [("a", FsNode.file)]
    ∧ mkdirRecursive 4 [("a", FsNode.file)] "a"
        ≠ .error (.notADirectory "a") := by
  constructor
  · rfl
  · intro h
    rw [show mkdirRecursive 4 [("a", FsNode.file)] "a" = .ok [("a", FsNode.file)] from rfl] at h
    cases h

/-- C5 amended: recursive `mkdir` is idempotent (a succeeding call re-run on
its own result succeeds with no further change); but a creation failure with
status code 4 — the source's assumed "already exists" code — is tolerated
with no stat verification, even when the existing object is not a directory,
and only a creation failure with a different status code triggers the stat
check, which skips an existing directory and surfaces the not-a-directory
error when the prefix exists as a non-directory. -/
theorem mkdir_recursive_amended :
    (∀ (fs fs' : RemoteFs) (path : String),
       mkdirRecursive 4 fs path = .ok fs' → mkdirRecursive 4 fs' path = .ok fs')
    ∧ (∀ (fs : RemoteFs) (prev part : String) (rest : List String),
        (fsLookup fs (mkdirStep prev part)).isSome →
        mkdirRecLoop 4 fs prev (part :: rest)
          = mkdirRecLoop 4 fs (mkdirStep prev part) rest)
    ∧ (∀ (c : Nat) (fs : RemoteFs) (prev part : String) (rest : List String),
        c ≠ 4 → fsLookup fs (mkdirStep prev part) = some .file →
        mkdirRecLoop c fs prev (part :: rest)
          = .error (.notADirectory (mkdirStep prev part)))
    ∧ (∀ (c : Nat) (fs : RemoteFs) (prev part : String) (rest : List String),
        c ≠ 4 → fsLookup fs (mkdirStep prev part) = some .dir →
        mkdirRecLoop c fs prev (part :: rest)
          = mkdirRecLoop c fs (mkdirStep prev part) rest) := by
  refine ⟨?_, ?_, ?_, ?_⟩
  · intro fs fs' path h
    rw [mkdirRecursive] at h ⊢
    exact (mkdirRecLoop_ok_invariant _ fs fs' _ h).2
  · intro fs prev part rest h
    rw [mkdirRecLoop, serverMkdir_of_exists 4 fs prev _ h]
    simp [SSH_FX_FAILURE_CODE]
  · intro c fs prev part rest hc hfile
    have hs : (fsLookup fs (mkdirStep prev part)).isSome := by rw [hfile]; rfl
    rw [mkdirRecLoop, serverMkdir_of_exists c fs prev _ hs]
    have hcf : (c == SSH_FX_FAILURE_CODE) = false := by
      simp [SSH_FX_FAILURE_CODE, hc]
    simp [hcf, hfile]
  · intro c fs prev part rest hc hdir
    have hs : (fsLookup fs (mkdirStep prev part)).isSome := by rw [hdir]; rfl
    rw [mkdirRecLoop, serverMkdir_of_exists c fs prev _ hs]
    have hcf : (c == SSH_FX_FAILURE_CODE) = false := by
      simp [SSH_FX_FAILURE_CODE, hc]
    simp [hcf, hdir]

theorem mkdir_recursive_amended_witness :
    mkdirRecursive 4 [("/a", FsNode.dir), ("/a/b", FsNode.dir), ("/a/b/c", FsNode.dir)]
        "/a/b/c"
      = .ok [("/a", FsNode.dir), ("/a/b", FsNode.dir), ("/a/b/c", FsNode.dir)]
    ∧ mkdirRecLoop 11 [("/a", FsNode.file)] "/" ["a", "b"]
      = .error (.notADirectory "/a") := by
  constructor
  · exact mkdir_recursive_amended.1 []
      [("/a", FsNode.dir), ("/a/b", FsNode.dir), ("/a/b/c", FsNode.dir)]
      "/a/b/c" rfl
  · have h := mkdir_recursive_amended.2.2.1 11 [("/a", FsNode.file)] "/" "a" ["b"]
      (by decide) rfl
    have hstep : mkdirStep "/" "a" = "/a" := rfl
    rw [hstep] at h
    exact h

/-! ## Claims: lastUsedAt discipline -/


theorem regLastUsedOk_refl (reg : Registry) (now : Nat) : RegLastUsedOk reg reg now :=
  fun _ e' h' => .inr ⟨e', h', rfl⟩

theorem regLastUsedOk_touchReg (reg : Registry) (i : String) (now : Nat) :
    RegLastUsedOk reg (touchReg reg i now) now := by
  intro id e' h'
  by_cases hid : id = i
  · subst hid
    rw [lookupSession_touchReg_self] at h'
    cases hl : lookupSession reg id with
    | none => rw [hl] at h'; cases h'
    | some e =>
        rw [hl] at h'
        cases h'
        exact .inl rfl
  · rw [lookupSession_touchReg_other _ _ _ _ hid] at h'
    exact .inr ⟨e', h', rfl⟩

theorem regLastUsedOk_erase (reg r : Registry) (i : String) (now : Nat)
    (h : RegLastUsedOk reg r now) : RegLastUsedOk reg (eraseSession r i) now := by
  intro id e' h'
  by_cases hid : id = i
  · subst hid
    rw [lookupSession_eraseSession_self] at h'
    cases h'
  · rw [lookupSession_eraseSession_other _ _ _ hid] at h'
    exact h id e' h'

theorem regLastUsedOk_set (reg r : Registry) (i : String) (e : SessionEntry) (now : Nat)
    (h : RegLastUsedOk reg r now) (he : e.lastUsedAt = now) :
    RegLastUsedOk reg (setSession r i e) now := by
  intro id e' h'
  by_cases hid : id = i
  · subst hid
    rw [lookupSession_setSession_self] at h'
    cases h'
    exact .inl he
  · rw [lookupSession_setSession_other _ _ _ _ hid] at h'
    exact h id e' h'

theorem execModel_reg_cases (reg : Registry) (id cmd : String) (t : Option Nat)
    (oc : ExecOutcome) (now : Nat) :
    (execModel reg id cmd t oc now).2 = reg
      ∨ (execModel reg id cmd t oc now).2 = touchReg reg id now := by
  cases hl : lookupSession reg id with
  | none => left; simp [execModel, touchCall, hl]
  | some e => right; cases oc <;> simp [execModel, touchCall, hl]

theorem getConnectionModel_reg_cases (reg : Registry) (id : String) (now : Nat) :
    (getConnectionModel reg id now).2 = reg
      ∨ (getConnectionModel reg id now).2 = touchReg reg id now := by
  cases hl : lookupSession reg id with
  | none => left; simp [getConnectionModel, touchCall, hl]
  | some e => right; simp [getConnectionModel, touchCall, hl]

theorem portForwardModel_reg_cases (conns : Registry) (fwds : Forwards)
    (o : ForwardOpts) (now : Nat) (setup : Except String Unit) :
    (portForwardModel conns fwds o now setup).2.1 = conns
      ∨ (portForwardModel conns fwds o now setup).2.1
          = touchReg conns o.connectionId now := by
  cases hl : lookupSession conns o.connectionId with
  | none => left; simp [portForwardModel, touchCall, hl]
  | some e =>
      right
      by_cases hf : (lookupForward fwds (fwdIdOf o)).isSome
      · simp [portForwardModel, touchCall, hl, hf]
      · cases setup <;> simp [portForwardModel, touchCall, hl, hf]

theorem connectModel_lastUsedOk (ah : Option (List String)) (fs : String → Option String)
    (dkp du : Option String) (reg : Registry) (o : ConnectOpts)
    (probe : ExecOutcome) (transport : TransportOutcome) (now : Nat) :
    RegLastUsedOk reg (connectModel ah fs dkp du reg o probe transport now).2 now := by
  by_cases hch : checkHost ah o.host
  · cases hl : lookupSession reg (makeConnectionId o.host (o.port.getD 22) o.name) with
    | some e =>
        cases hpr : (execModel reg (makeConnectionId o.host (o.port.getD 22) o.name)
            "echo __alive__" (some 5000) probe now).1 with
        | ok r =>
            have hc : (connectModel ah fs dkp du reg o probe transport now).2
                = touchReg reg (makeConnectionId o.host (o.port.getD 22) o.name) now := by
              simp [connectModel, hch, hl, hpr]
            rw [hc]
            exact regLastUsedOk_touchReg _ _ _
        | error err =>
            have hreg2 : (execModel reg (makeConnectionId o.host (o.port.getD 22) o.name)
                "echo __alive__" (some 5000) probe now).2
                = touchReg reg (makeConnectionId o.host (o.port.getD 22) o.name) now := by
              cases probe <;> simp [execModel, touchCall, hl]
            have hok' : RegLastUsedOk reg
                (eraseSession (touchReg reg (makeConnectionId o.host (o.port.getD 22) o.name) now)
                  (makeConnectionId o.host (o.port.getD 22) o.name)) now :=
              regLastUsedOk_erase _ _ _ _ (regLastUsedOk_touchReg _ _ _)
            cases hauth : resolveAuth fs dkp o with
            | error ae =>
                cases ae with
                | readKeyFailed p =>
                    have hc : (connectModel ah fs dkp du reg o probe transport now).2
                        = eraseSession (touchReg reg (makeConnectionId o.host (o.port.getD 22) o.name) now)
                            (makeConnectionId o.host (o.port.getD 22) o.name) := by
                      simp [connectModel, hch, hl, hpr, hreg2, hauth]
                    rw [hc]; exact hok'
                | unavailable =>
                    have hc : (connectModel ah fs dkp du reg o probe transport now).2
                        = eraseSession (touchReg reg (makeConnectionId o.host (o.port.getD 22) o.name) now)
                            (makeConnectionId o.host (o.port.getD 22) o.name) := by
                      simp [connectModel, hch, hl, hpr, hreg2, hauth]
                    rw [hc]; exact hok'
            | ok cred =>
                cases transport with
                | ready =>
                    have hc : (connectModel ah fs dkp du reg o probe .ready now).2
                        = setSession
                            (eraseSession (touchReg reg (makeConnectionId o.host (o.port.getD 22) o.name) now)
                              (makeConnectionId o.host (o.port.getD 22) o.name))
                            (makeConnectionId o.host (o.port.getD 22) o.name)
                            { host := o.host, port := o.port.getD 22,
                              username := orDefault o.username (orDefault du "root"),
                              connectedAt := now, lastUsedAt := now } := by
                      simp [connectModel, hch, hl, hpr, hreg2, hauth]
                    rw [hc]
                    exact regLastUsedOk_set _ _ _ _ _ hok' rfl
                | failed msg =>
                    have hc : (connectModel ah fs dkp du reg o probe (.failed msg) now).2
                        = eraseSession
                            (eraseSession (touchReg reg (makeConnectionId o.host (o.port.getD 22) o.name) now)
                              (makeConnectionId o.host (o.port.getD 22) o.name))
                            (makeConnectionId o.host (o.port.getD 22) o.name) := by
                      simp [connectModel, hch, hl, hpr, hreg2, hauth]
                    rw [hc]
                    exact regLastUsedOk_erase _ _ _ _ hok'
                | timedOut =>
                    have hc : (connectModel ah fs dkp du reg o probe .timedOut now).2
                        = eraseSession (touchReg reg (makeConnectionId o.host (o.port.getD 22) o.name) now)
                            (makeConnectionId o.host (o.port.getD 22) o.name) := by
                      simp [connectModel, hch, hl, hpr, hreg2, hauth]
                    rw [hc]; exact hok'
    | none =>
        cases hauth : resolveAuth fs dkp o with
        | error ae =>
            cases ae with
            | readKeyFailed p =>
                have hc : (connectModel ah fs dkp du reg o probe transport now).2 = reg := by
                  simp [connectModel, hch, hl, hauth]
                rw [hc]; exact regLastUsedOk_refl _ _
            | unavailable =>
                have hc : (connectModel ah fs dkp du reg o probe transport now).2 = reg := by
                  simp [connectModel, hch, hl, hauth]
                rw [hc]; exact regLastUsedOk_refl _ _
        | ok cred =>
            cases transport with
            | ready =>
                have hc : (connectModel ah fs dkp du reg o probe .ready now).2
                    = setSession reg (makeConnectionId o.host (o.port.getD 22) o.name)
                        { host := o.host, port := o.port.getD 22,
                          username := orDefault o.username (orDefault du "root"),
                          connectedAt := now, lastUsedAt := now } := by
                  simp [connectModel, hch, hl, hauth]
                rw [hc]
                exact regLastUsedOk_set _ _ _ _ _ (regLastUsedOk_refl _ _) rfl
            | failed msg =>
                have hc : (connectModel ah fs dkp du reg o probe (.failed msg) now).2
                    = eraseSession reg (makeConnectionId o.host (o.port.getD 22) o.name) := by
                  simp [connectModel, hch, hl, hauth]
                rw [hc]
                exact regLastUsedOk_erase _ _ _ _ (regLastUsedOk_refl _ _)
            | timedOut =>
                have hc : (connectModel ah fs dkp du reg o probe .timedOut now).2 = reg := by
                  simp [connectModel, hch, hl, hauth]
                rw [hc]; exact regLastUsedOk_refl _ _
  · have hc : (connectModel ah fs dkp du reg o probe transport now).2 = reg := by
      simp [connectModel, hch]
    rw [hc]
    exact regLastUsedOk_refl _ _

theorem stepOp_lastUsedOk (s : ServerState) (op : SessionOp) (now : Nat) :
    RegLastUsedOk s.connections (stepOp s op now).connections now := by
  cases op with
  | execOp id cmd t oc =>
      have h : (stepOp s (.execOp id cmd t oc) now).connections
          = (execModel s.connections id cmd t oc now).2 := rfl
      rw [h]
      rcases execModel_reg_cases s.connections id cmd t oc now with hc | hc <;> rw [hc]
      · exact regLastUsedOk_refl _ _
      · exact regLastUsedOk_touchReg _ _ _
  | fileOp id =>
      have h : (stepOp s (.fileOp id) now).connections
          = (getConnectionModel s.connections id now).2 := rfl
      rw [h]
      rcases getConnectionModel_reg_cases s.connections id now with hc | hc <;> rw [hc]
      · exact regLastUsedOk_refl _ _
      · exact regLastUsedOk_touchReg _ _ _
  | tunnelOp o setup =>
      have h : (stepOp s (.tunnelOp o setup) now).connections
          = (portForwardModel s.connections s.forwards o now setup).2.1 := rfl
      rw [h]
      rcases portForwardModel_reg_cases s.connections s.forwards o now setup with hc | hc
        <;> rw [hc]
      · exact regLastUsedOk_refl _ _
      · exact regLastUsedOk_touchReg _ _ _
  | openOp ah fs dkp du o probe transport =>
      have h : (stepOp s (.openOp ah fs dkp du o probe transport) now).connections
          = (connectModel ah fs dkp du s.connections o probe transport now).2 := rfl
      rw [h]
      exact connectModel_lastUsedOk ah fs dkp du s.connections o probe transport now

theorem runOps_lastUsed_lower (ys : List (Nat × SessionOp)) :
    ∀ (s : ServerState) (b : Nat) (id : String),
      (∀ v, lookupSession s.connections id = some v → b ≤ v.lastUsedAt) →
      (∀ t ∈ ys.map Prod.fst, b ≤ t) →
      ∀ v', lookupSession (runOps s ys).connections id = some v' → b ≤ v'.lastUsedAt := by
  induction ys with
  | nil =>
      intro s b id hinv htimes v' hv'
      exact hinv v' hv'
  | cons hd rest ih =>
      intro s b id hinv htimes v' hv'
      obtain ⟨t, op⟩ := hd
      have hstep := stepOp_lastUsedOk s op t
      have hinv1 : ∀ v, lookupSession (stepOp s op t).connections id = some v →
          b ≤ v.lastUsedAt := by
        intro v hv
        rcases hstep id v hv with hnow | ⟨e, he, heq⟩
        · rw [hnow]
          exact htimes t (by simp)
        · rw [heq]
          exact hinv e he
      have htimes1 : ∀ u ∈ rest.map Prod.fst, b ≤ u := by
        intro u hu
        exact htimes u (by simp [hu])
      exact ih (stepOp s op t) b id hinv1 htimes1 v' hv'


/-- C9: `lastUsedAt` is monotonically non-decreasing over an entry's
lifetime — across any trace of operations whose clock readings are at least
the entry's current mark, the mark never decreases — and every operation
that resolves a session updates it to the operation's time: `exec`, the
SFTP operations (through `getConnection`), tunnel creation, and reuse
during `open`. -/
theorem lastUsedAt_monotone_and_touched :
    (∀ (s : ServerState) (op : SessionOp) (now : Nat),
        RegLastUsedOk s.connections (stepOp s op now).connections now)
    ∧ (∀ (xs ys : List (Nat × SessionOp)) (s : ServerState) (id : String)
         (emid efin : SessionEntry),
        lookupSession (runOps s xs).connections id = some emid →
        (∀ t ∈ ys.map Prod.fst, emid.lastUsedAt ≤ t) →
        lookupSession (runOps s (xs ++ ys)).connections id = some efin →
        emid.lastUsedAt ≤ efin.lastUsedAt)
    ∧ (∀ (reg : Registry) (id cmd : String) (t : Option Nat) (oc : ExecOutcome)
         (now : Nat) (e : SessionEntry), lookupSession reg id = some e →
        lookupSession (execModel reg id cmd t oc now).2 id
          = some { e with lastUsedAt := now })
    ∧ (∀ (reg : Registry) (id : String) (now : Nat) (e : SessionEntry),
        lookupSession reg id = some e →
        lookupSession (getConnectionModel reg id now).2 id
          = some { e with lastUsedAt := now })
    ∧ (∀ (conns : Registry) (fwds : Forwards) (o : ForwardOpts) (now : Nat)
         (setup : Except String Unit) (e : SessionEntry),
        lookupSession conns o.connectionId = some e →
        lookupSession (portForwardModel conns fwds o now setup).2.1 o.connectionId
          = some { e with lastUsedAt := now })
    ∧ (∀ (ah : Option (List String)) (fs : String → Option String)
         (dkp du : Option String) (reg : Registry) (o : ConnectOpts)
         (probe : ExecOutcome) (transport : TransportOutcome) (now : Nat)
         (e : SessionEntry) (r : ExecResult),
        checkHost ah o.host = true →
        lookupSession reg (makeConnectionId o.host (o.port.getD 22) o.name) = some e →
        (execModel reg (makeConnectionId o.host (o.port.getD 22) o.name)
            "echo __alive__" (some 5000) probe now).1 = .ok r →
        connectModel ah fs dkp du reg o probe transport now
          = (.ok ⟨makeConnectionId o.host (o.port.getD 22) o.name, e.host, e.port, e.username⟩,
             touchReg reg (makeConnectionId o.host (o.port.getD 22) o.name) now)) := by
  refine ⟨stepOp_lastUsedOk, ?_, ?_, ?_, ?_, ?_⟩
  · intro xs ys s id emid efin hmid htimes hfin
    have happ : runOps s (xs ++ ys) = runOps (runOps s xs) ys := by
      simp [runOps, List.foldl_append]
    rw [happ] at hfin
    refine runOps_lastUsed_lower ys (runOps s xs) emid.lastUsedAt id ?_ htimes efin hfin
    intro v hv
    rw [hmid] at hv
    cases hv
    exact Nat.le_refl _
  · intro reg id cmd t oc now e h
    have h2 : (execModel reg id cmd t oc now).2 = touchReg reg id now := by
      cases oc <;> simp [execModel, touchCall, h]
    rw [h2, lookupSession_touchReg_self, h]
    rfl
  · intro reg id now e h
    have h2 : (getConnectionModel reg id now).2 = touchReg reg id now := by
      simp [getConnectionModel, touchCall, h]
    rw [h2, lookupSession_touchReg_self, h]
    rfl
  · intro conns fwds o now setup e h
    have h2 : (portForwardModel conns fwds o now setup).2.1
        = touchReg conns o.connectionId now := by
      by_cases hf : (lookupForward fwds (fwdIdOf o)).isSome
      · simp [portForwardModel, touchCall, h, hf]
      · cases setup <;> simp [portForwardModel, touchCall, h, hf]
    rw [h2, lookupSession_touchReg_self, h]
    rfl
  · intro ah fs dkp du reg o probe transport now e r hch hl hpr
    simp [connectModel, hch, hl, hpr]

theorem lastUsedAt_monotone_and_touched_witness :
    lookupSession
        (runOps ⟨[("s", ⟨"h", 22, "root", 0, 0⟩)], []⟩
          ([] ++ [(5, .fileOp "s")])).connections "s"
        = some ⟨"h", 22, "root", 0, 5⟩
    ∧ (0 : Nat) ≤ 5
    ∧ lookupSession
        (execModel [("s", ⟨"h", 22, "root", 0, 0⟩)] "s" "ls -la" none .timedOut 7).2 "s"
        = some ⟨"h", 22, "root", 0, 7⟩
    ∧ connectModel none (fun _ => none) none none [("s", ⟨"h", 22, "root", 0, 0⟩)]
        { host := "h", port := none, username := none, password := none,
          privateKey := none, privateKeyPath := none, passphrase := none,
          name := some "s" }
        (.closed "" "" none) .timedOut 9
        = (.ok ⟨"s", "h", 22, "root"⟩, touchReg [("s", ⟨"h", 22, "root", 0, 0⟩)] "s" 9) := by
  have hmono := lastUsedAt_monotone_and_touched.2.1 [] [(5, .fileOp "s")]
    ⟨[("s", ⟨"h", 22, "root", 0, 0⟩)], []⟩ "s" ⟨"h", 22, "root", 0, 0⟩
    ⟨"h", 22, "root", 0, 5⟩ rfl (by intro t ht; simp at ht; subst ht; exact Nat.zero_le 5) rfl
  have hexec := lastUsedAt_monotone_and_touched.2.2.1 [("s", ⟨"h", 22, "root", 0, 0⟩)]
    "s" "ls -la" none .timedOut 7 ⟨"h", 22, "root", 0, 0⟩ rfl
  have hreuse := lastUsedAt_monotone_and_touched.2.2.2.2.2 none (fun _ => none) none none
    [("s", ⟨"h", 22, "root", 0, 0⟩)]
    { host := "h", port := none, username := none, password := none,
      privateKey := none, privateKeyPath := none, passphrase := none, name := some "s" }
    (.closed "" "" none) .timedOut 9 ⟨"h", 22, "root", 0, 0⟩ ⟨"", "", 0⟩ rfl rfl rfl
  exact ⟨rfl, hmono, hexec, hreuse⟩

end SshMcp
